import Mathlib

/-!
Verification of `harmonica/forward/point_mass.py`: forward modelling of the
gravitational potential and radial acceleration of a point mass in spherical
geocentric coordinates.

The embedding is shallow: machine floating-point arithmetic is modelled by
exact real arithmetic (`ℝ`), numpy arrays by a shape together with a flat
list of data, Python exceptions by `Except String`, and the out-of-bounds
index fault of the accumulation loop by `Option`.  A second copy of the two
kernels (`kernel_potential_val`, `kernel_g_radial_val`) carries out the final
division with IEEE-754 special-value semantics so that the division-by-zero
singularity at a collocated observation/source pair can be expressed.
-/

namespace Harmonica

open Real

/-- `np.radians`: degrees to radians, `x * π / 180`. -/
noncomputable def radians (x : ℝ) : ℝ := x * (Real.pi / 180)

/-- Modelled from the spec: `GRAVITATIONAL_CONST` is imported from the
`harmonica.constants` module, which is outside the sources at hand; the spec
says it is the Newtonian gravitational constant in SI units, supplied
externally.  No claim below depends on its numeric value. -/
noncomputable def GRAVITATIONAL_CONST : ℝ := 6.6743e-11

/-- The intermediate `cospsi` computed identically inside both kernels:
`cospsi = sinphi_p * sinphi + cosphi_p * cosphi * np.cos(longitude_p - longitude)`. -/
noncomputable def kernel_cospsi (longitude cosphi sinphi longitude_p cosphi_p sinphi_p : ℝ) : ℝ :=
  let coslambda := Real.cos (longitude_p - longitude)
  sinphi_p * sinphi + cosphi_p * cosphi * coslambda

/-- The intermediate `distance_sq` computed identically inside both kernels:
`distance_sq = radius ** 2 + radius_p_sq - 2 * radius * radius_p * cospsi`. -/
noncomputable def kernel_distance_sq (radius radius_p radius_p_sq cospsi : ℝ) : ℝ :=
  radius ^ 2 + radius_p_sq - 2 * radius * radius_p * cospsi

/-- `kernel_potential` from the source: `1 / np.sqrt(distance_sq)`. -/
noncomputable def kernel_potential (longitude cosphi sinphi radius longitude_p cosphi_p
    sinphi_p radius_p radius_p_sq : ℝ) : ℝ :=
  let cospsi := kernel_cospsi longitude cosphi sinphi longitude_p cosphi_p sinphi_p
  let distance_sq := kernel_distance_sq radius radius_p radius_p_sq cospsi
  1 / Real.sqrt distance_sq

/-- `kernel_g_radial` from the source:
`delta_z / distance_sq ** (3 / 2)` with `delta_z = radius_p * cospsi - radius`. -/
noncomputable def kernel_g_radial (longitude cosphi sinphi radius longitude_p cosphi_p
    sinphi_p radius_p radius_p_sq : ℝ) : ℝ :=
  let cospsi := kernel_cospsi longitude cosphi sinphi longitude_p cosphi_p sinphi_p
  let distance_sq := kernel_distance_sq radius radius_p radius_p_sq cospsi
  let delta_z := radius_p * cospsi - radius
  delta_z / distance_sq ^ ((3 : ℝ) / 2)

/-- Result of a floating-point operation, distinguishing the IEEE-754
special values from finite results. -/
inductive FloatVal where
  | finite (x : ℝ)
  | posInf
  | negInf
  | nan

/-- IEEE-754 division restricted to finite operands: a zero divisor yields
`+Inf`, `-Inf` or `NaN` according to the sign of the dividend. -/
noncomputable def divIEEE (x y : ℝ) : FloatVal :=
  if y = 0 then
    if 0 < x then FloatVal.posInf
    else if x < 0 then FloatVal.negInf
    else FloatVal.nan
  else FloatVal.finite (x / y)

/-- `kernel_potential` with the final division carried out with IEEE-754
special-value semantics (all other arithmetic exact). -/
noncomputable def kernel_potential_val (longitude cosphi sinphi radius longitude_p cosphi_p
    sinphi_p radius_p radius_p_sq : ℝ) : FloatVal :=
  let cospsi := kernel_cospsi longitude cosphi sinphi longitude_p cosphi_p sinphi_p
  let distance_sq := kernel_distance_sq radius radius_p radius_p_sq cospsi
  divIEEE 1 (Real.sqrt distance_sq)

/-- `kernel_g_radial` with the final division carried out with IEEE-754
special-value semantics (all other arithmetic exact). -/
noncomputable def kernel_g_radial_val (longitude cosphi sinphi radius longitude_p cosphi_p
    sinphi_p radius_p radius_p_sq : ℝ) : FloatVal :=
  let cospsi := kernel_cospsi longitude cosphi sinphi longitude_p cosphi_p sinphi_p
  let distance_sq := kernel_distance_sq radius radius_p radius_p_sq cospsi
  let delta_z := radius_p * cospsi - radius
  divIEEE delta_z (distance_sq ^ ((3 : ℝ) / 2))

/-- The type of the two kernels: observation-point quantities
(`longitude, cosphi, sinphi, radius`), then source-point quantities
(`longitude_p, cosphi_p, sinphi_p, radius_p, radius_p_sq`). -/
abbrev Kernel := ℝ → ℝ → ℝ → ℝ → ℝ → ℝ → ℝ → ℝ → ℝ → ℝ

/-- `jit_point_mass_gravity` from the source: prepares the trigonometric
quantities of the single point mass and of every observation point, then runs
`for l in range(out.size): out[l] += kernel(...)`.  An index beyond the end
of a coordinate array (the fault the raveled-but-unbroadcast arrays produce)
is modelled by `none`; otherwise the updated output buffer is returned. -/
noncomputable def jit_point_mass_gravity (longitude latitude radius : List ℝ)
    (point : ℝ × ℝ × ℝ) (kernel : Kernel) (out : List ℝ) : Option (List ℝ) :=
  let longitude_p := radians point.1
  let latitude_p := radians point.2.1
  let radius_p := point.2.2
  let cosphi_p := Real.cos latitude_p
  let sinphi_p := Real.sin latitude_p
  let radius_p_sq := radius_p ^ 2
  let cosphi := latitude.map (fun x => Real.cos (radians x))
  let sinphi := latitude.map (fun x => Real.sin (radians x))
  let longitude_radians := longitude.map radians
  if out.length ≤ longitude.length ∧ out.length ≤ latitude.length ∧
      out.length ≤ radius.length then
    some (List.ofFn (fun l : Fin out.length =>
      out.get l + kernel (longitude_radians.getD l 0) (cosphi.getD l 0) (sinphi.getD l 0)
        (radius.getD l 0) longitude_p cosphi_p sinphi_p radius_p radius_p_sq))
  else none

/-- A numpy array: a shape and the flat (raveled) data. -/
structure NDArray where
  shape : List Nat
  data : List ℝ

/-- Numpy shape broadcasting on reversed (right-aligned) shape lists. -/
def bcastRev : List Nat → List Nat → Option (List Nat)
  | [], t => some t
  | a :: s, [] => some (a :: s)
  | a :: s, b :: t =>
    if a = b then (bcastRev s t).map (a :: ·)
    else if a = 1 then (bcastRev s t).map (b :: ·)
    else if b = 1 then (bcastRev s t).map (a :: ·)
    else none

/-- Numpy broadcasting of two shapes: align from the right, dimensions must
be equal or one of them 1, result is the maximum. -/
def broadcastShape2 (s t : List Nat) : Option (List Nat) :=
  (bcastRev s.reverse t.reverse).map List.reverse

/-- `np.broadcast` of three arrays, as a fold of pairwise broadcasting. -/
def broadcastShape3 (s t u : List Nat) : Option (List Nat) := do
  broadcastShape2 (← broadcastShape2 s t) u

/-- Python `sub in s` on strings: `sub` occurs as a contiguous substring. -/
def strInOp (sub s : String) : Bool :=
  (List.range (s.length - sub.length + 1)).any
    (fun i => (s.toList.drop i).take sub.length == sub.toList)

/-- `point_mass_gravity` from the source.  `coordinates` is the list of
observation coordinate arrays (only the first three are used), `point` the
point-mass coordinates `(longitude, latitude, radius)` in degrees/degrees/
meters, `mass` its mass in kg, `field` the requested gravitational field.
The unrecognized-field `ValueError`, the broadcast failure and the
accumulation-loop index fault are modelled by `Except.error`. -/
noncomputable def point_mass_gravity (coordinates : List NDArray) (point : ℝ × ℝ × ℝ)
    (mass : ℝ) (field : String) : Except String NDArray :=
  if field ≠ "potential" ∧ field ≠ "g_radial" then
    Except.error ("Gravity field " ++ field ++ " not recognized")
  else
    match coordinates.take 3 with
    | [c0, c1, c2] =>
      match broadcastShape3 c0.shape c1.shape c2.shape with
      | none => Except.error "shape mismatch: objects cannot be broadcast to a single shape"
      | some castShape =>
        let result := List.replicate castShape.prod (0 : ℝ)
        let kernel := if field = "potential" then kernel_potential else kernel_g_radial
        match jit_point_mass_gravity c0.data c1.data c2.data point kernel result with
        | none => Except.error "index out of bounds"
        | some result =>
          let result := result.map (· * (GRAVITATIONAL_CONST * mass))
          let result := if strInOp field "g_radial" then result.map (· * 1e5) else result
          Except.ok (NDArray.mk castShape result)
    | _ => Except.error "not enough values to unpack"

/-- At a collocated pair the shared intermediate `cospsi` evaluates to 1:
`sin²(lat) + cos²(lat)·cos(0) = 1`. -/
lemma kernel_cospsi_self (lon lat : ℝ) :
    kernel_cospsi (radians lon) (Real.cos (radians lat)) (Real.sin (radians lat))
      (radians lon) (Real.cos (radians lat)) (Real.sin (radians lat)) = 1 := by
  simp only [kernel_cospsi]
  rw [sub_self, Real.cos_zero, mul_one, ← Real.sin_sq_add_cos_sq (radians lat)]
  ring

/-- At a collocated pair the shared intermediate `distance_sq` evaluates
to 0. -/
lemma kernel_distance_sq_self (r c : ℝ) (hc : c = 1) :
    kernel_distance_sq r r (r ^ 2) c = 0 := by
  unfold kernel_distance_sq
  rw [hc]
  ring

end Harmonica

namespace Harmonica

/-- Claim C1: for every observation point and source point (longitudes and
latitudes in degrees, radii in meters), the potential kernel applied to the
prepared trigonometric quantities returns `1 / sqrt(distance_sq)` where
`cospsi = sin(lat_p)·sin(lat) + cos(lat_p)·cos(lat)·cos(lon_p − lon)` with
angles converted to radians, and
`distance_sq = r² + r_p² − 2·r·r_p·cospsi`. -/
theorem kernel_potential_spec (lon lat r lon_p lat_p r_p : ℝ) :
    kernel_potential (radians lon) (Real.cos (radians lat)) (Real.sin (radians lat)) r
      (radians lon_p) (Real.cos (radians lat_p)) (Real.sin (radians lat_p)) r_p (r_p ^ 2) =
    1 / Real.sqrt (r ^ 2 + r_p ^ 2 - 2 * r * r_p *
      (Real.sin (radians lat_p) * Real.sin (radians lat) +
        Real.cos (radians lat_p) * Real.cos (radians lat) *
          Real.cos (radians lon_p - radians lon))) := by
  rfl

/-- Claim C2: for every observation point and source point, the radial
acceleration kernel applied to the prepared trigonometric quantities returns
`(r_p·cospsi − r) / distance_sq^(3/2)` with `cospsi` and `distance_sq` as in
the potential kernel. -/
theorem kernel_g_radial_spec (lon lat r lon_p lat_p r_p : ℝ) :
    kernel_g_radial (radians lon) (Real.cos (radians lat)) (Real.sin (radians lat)) r
      (radians lon_p) (Real.cos (radians lat_p)) (Real.sin (radians lat_p)) r_p (r_p ^ 2) =
    (r_p * (Real.sin (radians lat_p) * Real.sin (radians lat) +
        Real.cos (radians lat_p) * Real.cos (radians lat) *
          Real.cos (radians lon_p - radians lon)) - r) /
      (r ^ 2 + r_p ^ 2 - 2 * r * r_p *
        (Real.sin (radians lat_p) * Real.sin (radians lat) +
          Real.cos (radians lat_p) * Real.cos (radians lat) *
            Real.cos (radians lon_p - radians lon))) ^ ((3 : ℝ) / 2) := by
  rfl

end Harmonica

namespace Harmonica

/-- Claim C8: swapping which of two points plays the role of observer and
which the role of source leaves both the computed `cospsi` and the computed
`distance_sq` (with `radius_p_sq` prepared as the square of the source
radius, as the pipeline does) identical. -/
theorem cospsi_distance_sq_swap_symm (lonA latA rA lonB latB rB : ℝ) :
    kernel_cospsi (radians lonA) (Real.cos (radians latA)) (Real.sin (radians latA))
        (radians lonB) (Real.cos (radians latB)) (Real.sin (radians latB)) =
      kernel_cospsi (radians lonB) (Real.cos (radians latB)) (Real.sin (radians latB))
        (radians lonA) (Real.cos (radians latA)) (Real.sin (radians latA)) ∧
    kernel_distance_sq rA rB (rB ^ 2)
        (kernel_cospsi (radians lonA) (Real.cos (radians latA)) (Real.sin (radians latA))
          (radians lonB) (Real.cos (radians latB)) (Real.sin (radians latB))) =
      kernel_distance_sq rB rA (rA ^ 2)
        (kernel_cospsi (radians lonB) (Real.cos (radians latB)) (Real.sin (radians latB))
          (radians lonA) (Real.cos (radians latA)) (Real.sin (radians latA))) := by
  have hcos : kernel_cospsi (radians lonA) (Real.cos (radians latA)) (Real.sin (radians latA))
      (radians lonB) (Real.cos (radians latB)) (Real.sin (radians latB)) =
      kernel_cospsi (radians lonB) (Real.cos (radians latB)) (Real.sin (radians latB))
        (radians lonA) (Real.cos (radians latA)) (Real.sin (radians latA)) := by
    unfold kernel_cospsi
    rw [show radians lonA - radians lonB = -(radians lonB - radians lonA) by ring, Real.cos_neg]
    ring
  refine ⟨hcos, ?_⟩
  rw [hcos]
  unfold kernel_distance_sq
  ring

/-- Claim C9: when the observation point exactly coincides with the point
mass (same longitude, latitude and radius), both kernels divide by zero and,
under IEEE-754 semantics for the final division, neither produces a finite
value: the potential kernel gives `+Inf` (dividend 1 over `sqrt 0 = 0`) and
the radial kernel gives `NaN` (`delta_z = 0` over `0^(3/2) = 0`).  The
embedded computation is total: no error is raised on the way. -/
theorem collocated_kernels_nonfinite (lon lat r : ℝ) :
    kernel_potential_val (radians lon) (Real.cos (radians lat)) (Real.sin (radians lat)) r
        (radians lon) (Real.cos (radians lat)) (Real.sin (radians lat)) r (r ^ 2) =
      FloatVal.posInf ∧
    kernel_g_radial_val (radians lon) (Real.cos (radians lat)) (Real.sin (radians lat)) r
        (radians lon) (Real.cos (radians lat)) (Real.sin (radians lat)) r (r ^ 2) =
      FloatVal.nan := by
  have hc := kernel_cospsi_self lon lat
  have hd : kernel_distance_sq r r (r ^ 2) 1 = 0 := kernel_distance_sq_self r 1 rfl
  constructor
  · simp only [kernel_potential_val]
    rw [hc, hd, Real.sqrt_zero]
    simp only [divIEEE]
    norm_num
  · simp only [kernel_g_radial_val]
    rw [hc, hd]
    have hz : (0 : ℝ) ^ ((3 : ℝ) / 2) = 0 := Real.zero_rpow (by norm_num)
    rw [hz, mul_one, sub_self]
    simp only [divIEEE]
    norm_num

/-- Claim C6: under the in-bounds precondition, the accumulation loop
returns a buffer of the same length whose every element is the element it
held before the call plus the kernel contribution of the point mass for that
observation point — the loop writes by addition, never by overwrite, into a
buffer it does not allocate. -/
theorem jit_point_mass_gravity_accumulates (longitude latitude radius : List ℝ)
    (point : ℝ × ℝ × ℝ) (kernel : Kernel) (out : List ℝ)
    (h1 : out.length ≤ longitude.length) (h2 : out.length ≤ latitude.length)
    (h3 : out.length ≤ radius.length) :
    ∃ out', jit_point_mass_gravity longitude latitude radius point kernel out = some out' ∧
      out'.length = out.length ∧
      ∀ l, l < out.length →
        out'.getD l 0 = out.getD l 0 +
          kernel (radians (longitude.getD l 0)) (Real.cos (radians (latitude.getD l 0)))
            (Real.sin (radians (latitude.getD l 0))) (radius.getD l 0)
            (radians point.1) (Real.cos (radians point.2.1)) (Real.sin (radians point.2.1))
            point.2.2 (point.2.2 ^ 2) := by
  unfold jit_point_mass_gravity
  rw [if_pos ⟨h1, h2, h3⟩]
  refine ⟨_, rfl, by rw [List.length_ofFn], ?_⟩
  intro l hl
  rw [List.getD_eq_getElem _ _ (by rw [List.length_ofFn]; exact hl), List.getElem_ofFn]
  have hlon : l < longitude.length := lt_of_lt_of_le hl h1
  have hlat : l < latitude.length := lt_of_lt_of_le hl h2
  have hrad : l < radius.length := lt_of_lt_of_le hl h3
  rw [List.getD_eq_getElem _ _ (by rw [List.length_map]; exact hlon),
    List.getD_eq_getElem _ _ (by rw [List.length_map]; exact hlat),
    List.getD_eq_getElem _ _ (by rw [List.length_map]; exact hlat),
    List.getElem_map, List.getElem_map, List.getElem_map,
    List.getD_eq_getElem _ _ hlon, List.getD_eq_getElem _ _ hlat,
    List.getD_eq_getElem _ _ hrad, List.getD_eq_getElem _ _ hl]
  rfl

/-- Witness for claim C6 at a concrete one-element call. -/
theorem jit_point_mass_gravity_accumulates_witness :
    ∃ out', jit_point_mass_gravity [0] [0] [1] (0, 0, 1) kernel_potential [5] = some out' ∧
      out'.length = [(5 : ℝ)].length ∧
      ∀ l, l < [(5 : ℝ)].length →
        out'.getD l 0 = [(5 : ℝ)].getD l 0 +
          kernel_potential (radians ([(0 : ℝ)].getD l 0))
            (Real.cos (radians ([(0 : ℝ)].getD l 0)))
            (Real.sin (radians ([(0 : ℝ)].getD l 0))) ([(1 : ℝ)].getD l 0)
            (radians (0, 0, (1 : ℝ)).1) (Real.cos (radians (0, 0, (1 : ℝ)).2.1))
            (Real.sin (radians (0, 0, (1 : ℝ)).2.1)) (0, 0, (1 : ℝ)).2.2
            ((0, 0, (1 : ℝ)).2.2 ^ 2) :=
  jit_point_mass_gravity_accumulates [0] [0] [1] (0, 0, 1) kernel_potential [5]
    (by simp) (by simp) (by simp)

end Harmonica

namespace Harmonica

/-- The accumulation loop started on the zero-initialized buffer the public
entry point allocates: every element of the returned buffer is exactly the
kernel contribution of the point mass for that observation point. -/
lemma jit_replicate_spec (longitude latitude radius : List ℝ) (point : ℝ × ℝ × ℝ)
    (kernel : Kernel) (n : Nat) (h1 : n ≤ longitude.length) (h2 : n ≤ latitude.length)
    (h3 : n ≤ radius.length) :
    ∃ out', jit_point_mass_gravity longitude latitude radius point kernel
        (List.replicate n 0) = some out' ∧
      out'.length = n ∧
      ∀ l, l < n → out'.getD l 0 =
        kernel (radians (longitude.getD l 0)) (Real.cos (radians (latitude.getD l 0)))
          (Real.sin (radians (latitude.getD l 0))) (radius.getD l 0)
          (radians point.1) (Real.cos (radians point.2.1)) (Real.sin (radians point.2.1))
          point.2.2 (point.2.2 ^ 2) := by
  unfold jit_point_mass_gravity
  rw [if_pos ⟨by simpa using h1, by simpa using h2, by simpa using h3⟩]
  refine ⟨_, rfl, by rw [List.length_ofFn, List.length_replicate], ?_⟩
  intro l hl
  have hn : l < (List.replicate n (0 : ℝ)).length := by simpa using hl
  rw [List.getD_eq_getElem _ _ (by rw [List.length_ofFn]; exact hn), List.getElem_ofFn]
  have hlon : l < longitude.length := lt_of_lt_of_le hl h1
  have hlat : l < latitude.length := lt_of_lt_of_le hl h2
  have hrad : l < radius.length := lt_of_lt_of_le hl h3
  rw [List.getD_eq_getElem _ _ (by rw [List.length_map]; exact hlon),
    List.getD_eq_getElem _ _ (by rw [List.length_map]; exact hlat),
    List.getD_eq_getElem _ _ (by rw [List.length_map]; exact hlat),
    List.getElem_map, List.getElem_map, List.getElem_map,
    List.getD_eq_getElem _ _ hlon, List.getD_eq_getElem _ _ hlat,
    List.getD_eq_getElem _ _ hrad]
  simp only [List.get_eq_getElem, List.getElem_replicate, zero_add]

/-- Evaluation of the public entry point for `field = "potential"` with a
single point mass, under the in-bounds sizes the raveled arrays must have. -/
lemma pmg_potential_eval (c0 c1 c2 : NDArray) (rest : List NDArray) (point : ℝ × ℝ × ℝ)
    (mass : ℝ) (bs : List Nat) (hbs : broadcastShape3 c0.shape c1.shape c2.shape = some bs)
    (h0 : bs.prod ≤ c0.data.length) (h1 : bs.prod ≤ c1.data.length)
    (h2 : bs.prod ≤ c2.data.length) :
    ∃ r, point_mass_gravity (c0 :: c1 :: c2 :: rest) point mass "potential" = Except.ok r ∧
      r.shape = bs ∧ r.data.length = bs.prod ∧
      ∀ l, l < bs.prod → r.data.getD l 0 = GRAVITATIONAL_CONST * mass *
        kernel_potential (radians (c0.data.getD l 0)) (Real.cos (radians (c1.data.getD l 0)))
          (Real.sin (radians (c1.data.getD l 0))) (c2.data.getD l 0)
          (radians point.1) (Real.cos (radians point.2.1)) (Real.sin (radians point.2.1))
          point.2.2 (point.2.2 ^ 2) := by
  obtain ⟨out', hjit, hlen, helem⟩ :=
    jit_replicate_spec c0.data c1.data c2.data point kernel_potential bs.prod h0 h1 h2
  unfold point_mass_gravity
  rw [if_neg (by simp)]
  simp only [List.take_succ_cons, List.take_zero]
  rw [hbs]
  simp only []
  rw [if_pos trivial, hjit]
  simp only []
  rw [show strInOp "potential" "g_radial" = false from by decide]
  simp only [Bool.false_eq_true, if_false]
  refine ⟨_, rfl, rfl, by rw [List.length_map, hlen], ?_⟩
  intro l hl
  have hl' : l < out'.length := by rw [hlen]; exact hl
  rw [List.getD_eq_getElem _ _ (by rw [List.length_map]; exact hl'), List.getElem_map,
    ← List.getD_eq_getElem _ (0 : ℝ) hl', helem l hl]
  ring

end Harmonica

namespace Harmonica

/-- Evaluation of the public entry point for `field = "g_radial"` with a
single point mass, under the in-bounds sizes the raveled arrays must have. -/
lemma pmg_g_radial_eval (c0 c1 c2 : NDArray) (rest : List NDArray) (point : ℝ × ℝ × ℝ)
    (mass : ℝ) (bs : List Nat) (hbs : broadcastShape3 c0.shape c1.shape c2.shape = some bs)
    (h0 : bs.prod ≤ c0.data.length) (h1 : bs.prod ≤ c1.data.length)
    (h2 : bs.prod ≤ c2.data.length) :
    ∃ r, point_mass_gravity (c0 :: c1 :: c2 :: rest) point mass "g_radial" = Except.ok r ∧
      r.shape = bs ∧ r.data.length = bs.prod ∧
      ∀ l, l < bs.prod → r.data.getD l 0 = 1e5 * (GRAVITATIONAL_CONST * mass) *
        kernel_g_radial (radians (c0.data.getD l 0)) (Real.cos (radians (c1.data.getD l 0)))
          (Real.sin (radians (c1.data.getD l 0))) (c2.data.getD l 0)
          (radians point.1) (Real.cos (radians point.2.1)) (Real.sin (radians point.2.1))
          point.2.2 (point.2.2 ^ 2) := by
  obtain ⟨out', hjit, hlen, helem⟩ :=
    jit_replicate_spec c0.data c1.data c2.data point kernel_g_radial bs.prod h0 h1 h2
  unfold point_mass_gravity
  rw [if_neg (by simp)]
  simp only [List.take_succ_cons, List.take_zero]
  rw [hbs]
  simp only []
  rw [if_neg (by decide), hjit]
  simp only []
  rw [show strInOp "g_radial" "g_radial" = true from by decide]
  simp only [if_true]
  refine ⟨_, rfl, rfl, by rw [List.length_map, List.length_map, hlen], ?_⟩
  intro l hl
  have hl' : l < out'.length := by rw [hlen]; exact hl
  rw [List.getD_eq_getElem _ _ (by rw [List.length_map, List.length_map]; exact hl'),
    List.getElem_map, List.getElem_map, ← List.getD_eq_getElem _ (0 : ℝ) hl', helem l hl]
  ring

end Harmonica

namespace Harmonica

/-- A string sandwiched between a prefix and a suffix occurs as a Python
substring of the concatenation. -/
lemma strInOp_middle (pre post field : String) :
    strInOp field (pre ++ field ++ post) = true := by
  unfold strInOp
  apply List.any_eq_true.mpr
  refine ⟨pre.length, List.mem_range.mpr ?_, ?_⟩
  · rw [String.length_append, String.length_append]
    omega
  · have hdata : (pre ++ field ++ post).toList =
        pre.toList ++ (field.toList ++ post.toList) := by
      show (pre ++ field ++ post).data = pre.data ++ (field.data ++ post.data)
      rw [String.data_append, String.data_append, List.append_assoc]
    rw [hdata]
    have hplen : pre.length = pre.toList.length := rfl
    have hflen : field.length = field.toList.length := rfl
    rw [hplen, List.drop_left, hflen, List.take_left]
    simp

end Harmonica

namespace Harmonica

/-- Claim C3: for every valid call with a single point mass, the accumulated
kernel sums are scaled by `G·mass`, and the SI-to-mGal factor `1e5` is
applied exactly when `field = "g_radial"` and never when
`field = "potential"`. -/
theorem point_mass_gravity_units (c0 c1 c2 : NDArray) (rest : List NDArray)
    (point : ℝ × ℝ × ℝ) (mass : ℝ) (bs : List Nat)
    (hbs : broadcastShape3 c0.shape c1.shape c2.shape = some bs)
    (h0 : bs.prod ≤ c0.data.length) (h1 : bs.prod ≤ c1.data.length)
    (h2 : bs.prod ≤ c2.data.length) :
    ∃ rp rg,
      point_mass_gravity (c0 :: c1 :: c2 :: rest) point mass "potential" = Except.ok rp ∧
      point_mass_gravity (c0 :: c1 :: c2 :: rest) point mass "g_radial" = Except.ok rg ∧
      ∀ l, l < bs.prod →
        rp.data.getD l 0 = GRAVITATIONAL_CONST * mass *
          kernel_potential (radians (c0.data.getD l 0)) (Real.cos (radians (c1.data.getD l 0)))
            (Real.sin (radians (c1.data.getD l 0))) (c2.data.getD l 0)
            (radians point.1) (Real.cos (radians point.2.1)) (Real.sin (radians point.2.1))
            point.2.2 (point.2.2 ^ 2) ∧
        rg.data.getD l 0 = 1e5 * (GRAVITATIONAL_CONST * mass) *
          kernel_g_radial (radians (c0.data.getD l 0)) (Real.cos (radians (c1.data.getD l 0)))
            (Real.sin (radians (c1.data.getD l 0))) (c2.data.getD l 0)
            (radians point.1) (Real.cos (radians point.2.1)) (Real.sin (radians point.2.1))
            point.2.2 (point.2.2 ^ 2) := by
  obtain ⟨rp, hpok, _, _, hpelem⟩ := pmg_potential_eval c0 c1 c2 rest point mass bs hbs h0 h1 h2
  obtain ⟨rg, hgok, _, _, hgelem⟩ := pmg_g_radial_eval c0 c1 c2 rest point mass bs hbs h0 h1 h2
  exact ⟨rp, rg, hpok, hgok, fun l hl => ⟨hpelem l hl, hgelem l hl⟩⟩

/-- Witness for claim C3 at a concrete single-element call. -/
theorem point_mass_gravity_units_witness :
    ∃ rp rg,
      point_mass_gravity [⟨[1], [0]⟩, ⟨[1], [0]⟩, ⟨[1], [2]⟩] (0, 0, 1) 3 "potential" =
        Except.ok rp ∧
      point_mass_gravity [⟨[1], [0]⟩, ⟨[1], [0]⟩, ⟨[1], [2]⟩] (0, 0, 1) 3 "g_radial" =
        Except.ok rg := by
  obtain ⟨rp, rg, hp, hg, _⟩ :=
    point_mass_gravity_units ⟨[1], [0]⟩ ⟨[1], [0]⟩ ⟨[1], [2]⟩ [] (0, 0, 1) 3 [1]
      rfl (by simp) (by simp) (by simp)
  exact ⟨rp, rg, hp, hg⟩

/-- Claim C4: for every field name other than `"potential"` and
`"g_radial"`, `point_mass_gravity` fails at once with the
unrecognized-field error — whatever the other arguments are, so before any
output allocation or kernel computation — and the error message names the
offending value. -/
theorem point_mass_gravity_invalid_field (coordinates : List NDArray) (point : ℝ × ℝ × ℝ)
    (mass : ℝ) (field : String) (hp : field ≠ "potential") (hg : field ≠ "g_radial") :
    point_mass_gravity coordinates point mass field =
      Except.error ("Gravity field " ++ field ++ " not recognized") ∧
    strInOp field ("Gravity field " ++ field ++ " not recognized") = true := by
  constructor
  · unfold point_mass_gravity
    rw [if_pos ⟨hp, hg⟩]
  · exact strInOp_middle "Gravity field " " not recognized" field

/-- Witness for claim C4 at `field = "bogus"`. -/
theorem point_mass_gravity_invalid_field_witness :
    point_mass_gravity [] (0, 0, 0) 0 "bogus" =
      Except.error ("Gravity field " ++ "bogus" ++ " not recognized") ∧
    strInOp "bogus" ("Gravity field " ++ "bogus" ++ " not recognized") = true :=
  point_mass_gravity_invalid_field [] (0, 0, 0) 0 "bogus" (by decide) (by decide)

/-- Claim C10: the result of `point_mass_gravity` depends only on the first
three entries of `coordinates`; extra entries beyond the third are ignored. -/
theorem point_mass_gravity_take3_only (coords coords' : List NDArray) (point : ℝ × ℝ × ℝ)
    (mass : ℝ) (field : String) (h : coords.take 3 = coords'.take 3) :
    point_mass_gravity coords point mass field =
      point_mass_gravity coords' point mass field := by
  unfold point_mass_gravity
  rw [h]

/-- Witness for claim C10: appending a fourth coordinate array does not
change the result. -/
theorem point_mass_gravity_take3_only_witness :
    point_mass_gravity [⟨[1], [0]⟩, ⟨[1], [0]⟩, ⟨[1], [2]⟩] (0, 0, 1) 1 "potential" =
      point_mass_gravity [⟨[1], [0]⟩, ⟨[1], [0]⟩, ⟨[1], [2]⟩, ⟨[7], [9]⟩] (0, 0, 1) 1
        "potential" :=
  point_mass_gravity_take3_only _ _ (0, 0, 1) 1 "potential" rfl

end Harmonica

namespace Harmonica

/-- Claim C5: for a single point mass of mass `mass` at radius `r_p`
directly below an observation point at the same longitude and latitude and
radius `r_o > r_p`, the computed potential equals `G·mass / (r_o − r_p)`
exactly: the collinear case reduces `distance_sq` to `(r_o − r_p)²`. -/
theorem point_mass_gravity_collinear (lon lat r_o r_p mass : ℝ) (h : r_p < r_o) :
    point_mass_gravity [⟨[1], [lon]⟩, ⟨[1], [lat]⟩, ⟨[1], [r_o]⟩] (lon, lat, r_p) mass
        "potential" =
      Except.ok ⟨[1], [GRAVITATIONAL_CONST * mass / (r_o - r_p)]⟩ := by
  obtain ⟨r, hok, hshape, hlen, helem⟩ :=
    pmg_potential_eval ⟨[1], [lon]⟩ ⟨[1], [lat]⟩ ⟨[1], [r_o]⟩ [] (lon, lat, r_p) mass [1]
      rfl (by simp) (by simp) (by simp)
  rw [hok]
  obtain ⟨x, hx⟩ := List.length_eq_one.mp (by simpa using hlen)
  have hval := helem 0 (by simp)
  rw [hx] at hval
  simp at hval
  have hker : kernel_potential (radians lon) (Real.cos (radians lat)) (Real.sin (radians lat))
      r_o (radians lon) (Real.cos (radians lat)) (Real.sin (radians lat)) r_p (r_p ^ 2) =
      1 / (r_o - r_p) := by
    simp only [kernel_potential]
    rw [kernel_cospsi_self lon lat]
    have hd : kernel_distance_sq r_o r_p (r_p ^ 2) 1 = (r_o - r_p) ^ 2 := by
      simp only [kernel_distance_sq]
      ring
    rw [hd, Real.sqrt_sq (by linarith)]
  rw [hker, mul_one_div] at hval
  obtain ⟨shape, data⟩ := r
  have hs : shape = [1] := hshape
  have hd : data = [x] := hx
  subst hs
  subst hd
  rw [hval]

/-- Witness for claim C5: point mass at radius 1 below an observation point
at radius 2, mass 3. -/
theorem point_mass_gravity_collinear_witness :
    point_mass_gravity [⟨[1], [0]⟩, ⟨[1], [0]⟩, ⟨[1], [2]⟩] (0, 0, 1) 3 "potential" =
      Except.ok ⟨[1], [GRAVITATIONAL_CONST * 3 / (2 - 1)]⟩ :=
  point_mass_gravity_collinear 0 0 2 1 3 (by norm_num)

end Harmonica

namespace Harmonica

/-- Claim C7 (amended): for a valid field, when each of the three raveled
observation coordinate arrays has at least as many elements as the broadcast
size — in particular whenever the three arrays share one shape, e.g. a 2-D
grid — the returned array has exactly the broadcast shape of the three
observation coordinate shapes, not a flattened shape. -/
theorem point_mass_gravity_shape (c0 c1 c2 : NDArray) (rest : List NDArray)
    (point : ℝ × ℝ × ℝ) (mass : ℝ) (field : String) (bs : List Nat)
    (hf : field = "potential" ∨ field = "g_radial")
    (hbs : broadcastShape3 c0.shape c1.shape c2.shape = some bs)
    (h0 : bs.prod ≤ c0.data.length) (h1 : bs.prod ≤ c1.data.length)
    (h2 : bs.prod ≤ c2.data.length) :
    ∃ r, point_mass_gravity (c0 :: c1 :: c2 :: rest) point mass field = Except.ok r ∧
      r.shape = bs := by
  rcases hf with hf | hf <;> subst hf
  · obtain ⟨r, hok, hs, _, _⟩ := pmg_potential_eval c0 c1 c2 rest point mass bs hbs h0 h1 h2
    exact ⟨r, hok, hs⟩
  · obtain ⟨r, hok, hs, _, _⟩ := pmg_g_radial_eval c0 c1 c2 rest point mass bs hbs h0 h1 h2
    exact ⟨r, hok, hs⟩

/-- Witness for claim C7: three 2×3 coordinate grids produce a result of
shape 2×3. -/
theorem point_mass_gravity_shape_witness :
    ∃ r, point_mass_gravity
        [⟨[2, 3], [0, 0, 0, 0, 0, 0]⟩, ⟨[2, 3], [0, 0, 0, 0, 0, 0]⟩,
          ⟨[2, 3], [1, 1, 1, 1, 1, 1]⟩] (0, 0, 1) 1 "potential" = Except.ok r ∧
      r.shape = [2, 3] :=
  point_mass_gravity_shape ⟨[2, 3], [0, 0, 0, 0, 0, 0]⟩ ⟨[2, 3], [0, 0, 0, 0, 0, 0]⟩
    ⟨[2, 3], [1, 1, 1, 1, 1, 1]⟩ [] (0, 0, 1) 1 "potential" [2, 3] (Or.inl rfl) rfl
    (by simp) (by simp) (by simp)

/-- Counterexample to claim C7 as stated: observation coordinate arrays of
the broadcast-compatible shapes 2×1, 1×2 and 1×1 (broadcast shape 2×2) do
not produce a result of shape 2×2 — the entry point ravels the arrays
without broadcasting them, so the accumulation loop runs over 4 elements
while the coordinate arrays hold only 2, 2 and 1, and the call faults with
an out-of-bounds index instead of returning an array. -/
theorem point_mass_gravity_shape_cex :
    point_mass_gravity [⟨[2, 1], [0, 0]⟩, ⟨[1, 2], [0, 0]⟩, ⟨[1, 1], [1]⟩] (0, 0, 1) 1
        "potential" = Except.error "index out of bounds" := by
  rfl

end Harmonica
